import Mathlib

/-!
Verification of the Gerrychain_FRA redistricting-analysis scripts.

Shallow embedding of the analysis code in
`scripts/real_data/single_state_detection.py`,
`scripts/real_data/single_state_detection_v2.py`,
`scripts/real_data/multi_state_detection.py`,
`scripts/real_data/real_data_simple.py` and `gerrymandering_detection.py`.
Metric values (counts of districts won) are embedded as `ℤ`, real-valued
statistics as `ℚ`.
-/

namespace GerrychainFRA

/-! ## Ensemble outlier statistics (analyze_state) -/

/-- `sum(1 for x in dem_wins_list if x < initial_dem_wins)` — from
`analyze_state` (single_state_detection.py line 551, v2 line 870). -/
def below_initial (dem_wins_list : List ℤ) (initial_dem_wins : ℤ) : ℕ :=
  dem_wins_list.countP (fun x => x < initial_dem_wins)

/-- `sum(1 for x in dem_wins_list if x == initial_dem_wins)` — from
`analyze_state` (single_state_detection.py line 552, v2 line 871). -/
def equal_initial (dem_wins_list : List ℤ) (initial_dem_wins : ℤ) : ℕ :=
  dem_wins_list.countP (fun x => x = initial_dem_wins)

/-- `percentile = ((below_initial + 0.5 * equal_initial) / len(dem_wins_list)) * 100`
— from `analyze_state` (single_state_detection.py line 553, v2 line 872,
multi_state_detection.py line 344). -/
def percentileOf (dem_wins_list : List ℤ) (initial_dem_wins : ℤ) : ℚ :=
  ((below_initial dem_wins_list initial_dem_wins + (1/2 : ℚ) *
    equal_initial dem_wins_list initial_dem_wins) / dem_wins_list.length) * 100

/-- The spec's percentile formula, stated with literal counts:
`(count_strictly_below + 0.5 · count_equal) / N × 100`. -/
def spec_percentile (values : List ℤ) (enacted : ℤ) : ℚ :=
  (((values.filter (fun x => x < enacted)).length +
    (1/2 : ℚ) * (values.filter (fun x => x = enacted)).length) / values.length) * 100

/-- The ensemble of the spec's concrete scenario: 1000 runs, the value 4
appearing 500 times and the value 3 appearing 500 times. -/
def scenarioEnsemble : List ℤ :=
  List.replicate 500 4 ++ List.replicate 500 3

/-- `is_outlier = percentile < 5 or percentile > 95` — from `analyze_state`
(single_state_detection.py line 559, multi_state_detection.py line 347). -/
def is_outlier (percentile : ℚ) : Bool :=
  decide (percentile < 5) || decide (percentile > 95)

/-- `OUTLIER_THRESHOLD = 10` — module constant of single_state_detection_v2.py
(line 60), with the comment "Flag if < 10th or > 90th percentile (was 5%)". -/
def OUTLIER_THRESHOLD : ℚ := 10

/-- `percentile_outlier = percentile < OUTLIER_THRESHOLD or percentile > (100 - OUTLIER_THRESHOLD)`
— from `analyze_state` (single_state_detection_v2.py line 880). -/
def percentile_outlier (percentile : ℚ) : Bool :=
  decide (percentile < OUTLIER_THRESHOLD) ||
    decide (percentile > 100 - OUTLIER_THRESHOLD)

/-- `z_score = (initial_dem_wins - mean_dem) / std_dem if std_dem > 0 else 0`
— from `analyze_state` (single_state_detection.py line 556, v2 line 875). -/
def z_score (initial_dem_wins mean_dem std_dem : ℚ) : ℚ :=
  if std_dem > 0 then (initial_dem_wins - mean_dem) / std_dem else 0

theorem countP_replicate_of_pos {α : Type _} (p : α → Bool) (a : α) (n : ℕ)
    (h : p a = true) : (List.replicate n a).countP p = n := by
  induction n with
  | zero => rfl
  | succ k ih => simp [List.replicate_succ, List.countP_cons, h, ih]

theorem countP_replicate_of_neg {α : Type _} (p : α → Bool) (a : α) (n : ℕ)
    (h : p a = false) : (List.replicate n a).countP p = 0 := by
  induction n with
  | zero => rfl
  | succ k ih => simp [List.replicate_succ, List.countP_cons, h, ih]

theorem scenario_below : below_initial scenarioEnsemble 4 = 500 := by
  unfold below_initial scenarioEnsemble
  rw [List.countP_append,
    countP_replicate_of_neg _ _ _ (by decide),
    countP_replicate_of_pos _ _ _ (by decide)]

theorem scenario_equal : equal_initial scenarioEnsemble 4 = 500 := by
  unfold equal_initial scenarioEnsemble
  rw [List.countP_append,
    countP_replicate_of_pos _ _ _ (by decide),
    countP_replicate_of_neg _ _ _ (by decide)]

theorem scenario_length : scenarioEnsemble.length = 1000 := by
  unfold scenarioEnsemble
  rw [List.length_append, List.length_replicate, List.length_replicate]

/-- C1: for every non-empty ensemble list the computed percentile equals
`(count strictly below + 0.5 · count equal) / N × 100`, and on the concrete
scenario — enacted value 4, ensemble of 1000 values holding 4 exactly 500
times and 3 exactly 500 times — the percentile is exactly 75. -/
theorem percentile_midpoint_rule :
    (∀ (values : List ℤ) (enacted : ℤ), values ≠ [] →
      percentileOf values enacted = spec_percentile values enacted) ∧
    percentileOf scenarioEnsemble 4 = 75 := by
  constructor
  · intro values enacted _
    unfold percentileOf spec_percentile below_initial equal_initial
    rw [List.countP_eq_length_filter, List.countP_eq_length_filter]
  · unfold percentileOf
    rw [scenario_below, scenario_equal, scenario_length]
    norm_num

/-- Witness for C1: the general formula instantiated at the ensemble `[3, 4]`
with enacted value 4, the hypothesis discharged concretely. -/
theorem percentile_midpoint_rule_witness :
    percentileOf [(3 : ℤ), 4] 4 = spec_percentile [(3 : ℤ), 4] 4 :=
  percentile_midpoint_rule.1 [(3 : ℤ), 4] 4 (by decide)

/-- Counterexample for C3: at percentile 7 the v2 outlier flag is true, while
the claimed rule with the default threshold 5 says it should be false. -/
theorem outlier_default_threshold_counterexample :
    percentile_outlier 7 = true ∧ ¬ ((7 : ℚ) < 5 ∨ (7 : ℚ) > 100 - 5) := by
  constructor
  · decide
  · push_neg
    norm_num

/-- C3 (amended): the outlier flag is true iff the percentile is strictly
below the threshold or strictly above 100 minus the threshold; the threshold
is 5 in single_state_detection.py and multi_state_detection.py, but 10 in
single_state_detection_v2.py. -/
theorem outlier_flag_iff (p : ℚ) :
    (is_outlier p = true ↔ p < 5 ∨ p > 100 - 5) ∧
    (percentile_outlier p = true ↔ p < 10 ∨ p > 100 - 10) := by
  constructor
  · unfold is_outlier
    norm_num
  · unfold percentile_outlier OUTLIER_THRESHOLD
    norm_num

/-- C5: the computed z-score equals `(enacted - mean) / std` when `std > 0`,
and equals 0 when `std = 0`. -/
theorem z_score_spec (e m s : ℚ) :
    (s > 0 → z_score e m s = (e - m) / s) ∧ (s = 0 → z_score e m s = 0) := by
  constructor
  · intro hs
    unfold z_score
    rw [if_pos hs]
  · intro hs
    unfold z_score
    rw [if_neg (by rw [hs]; exact lt_irrefl 0)]

/-- Witness for C5 at `e = 4`, `m = 3`, `s = 2` and at `s = 0`. -/
theorem z_score_spec_witness :
    z_score 4 3 2 = (4 - 3) / 2 ∧ z_score 4 3 0 = 0 :=
  ⟨(z_score_spec 4 3 2).1 (by norm_num), (z_score_spec 4 3 0).2 rfl⟩

/-! ## Chain driver and the ensemble loop (run_ensemble) -/

/-- Modelled from the spec: §4.6 ChainDriver step semantics of the external
`gerrychain.MarkovChain` (the library itself is not part of this repository).
One step: generate a candidate via the proposal; if the proposal reports
"no proposal" or any constraint fails, the current state is repeated;
otherwise the acceptance function decides between candidate and current. -/
def chainStep {σ : Type _} (propose : σ → Option σ) (valid : σ → Bool)
    (accept : σ → σ → Bool) (cur : σ) : σ :=
  match propose cur with
  | none => cur
  | some cand => if valid cand then (if accept cur cand then cand else cur) else cur

/-- Modelled from the spec: §4.6 — the chain emits exactly `n` states in
order, each obtained from the previous by `chainStep` (a rejected proposal
repeats the current state, and the repetition still counts as a step). -/
def chainOutputs {σ : Type _} (propose : σ → Option σ) (valid : σ → Bool)
    (accept : σ → σ → Bool) (cur : σ) : ℕ → List σ
  | 0 => []
  | n + 1 => cur :: chainOutputs propose valid accept
      (chainStep propose valid accept cur) n

/-- The ensemble loop of `run_ensemble` in multi_state_detection.py (lines
265-271): for each partition yielded by the chain, compute the metric and
append it to `dem_wins_list`. This loop has no progress printing. -/
def run_ensemble_multi_metrics {σ : Type _} (propose : σ → Option σ) (valid : σ → Bool)
    (accept : σ → σ → Bool) (metric : σ → ℤ) (init : σ) (num_steps : ℕ) : List ℤ :=
  (chainOutputs propose valid accept init num_steps).map metric

/-- The progress-print condition `(i + 1) % (num_steps // 10) == 0` evaluated
at iteration `i` of the ensemble loop in single_state_detection.py (line 444):
when `num_steps // 10` is 0 the modulo raises `ZeroDivisionError`, embedded
as `none`. -/
def progressCheck (num_steps i : ℕ) : Option Bool :=
  if num_steps / 10 = 0 then none
  else some (decide ((i + 1) % (num_steps / 10) = 0))

/-- The ensemble loop body of `run_ensemble` in single_state_detection.py
(lines 442-451): at each iteration the progress condition is evaluated first
(possibly raising), then the metric is computed and appended. An exception
aborts the loop and the surrounding `except` makes `run_ensemble` return
`None`, embedded as `none`. -/
def dem_wins_loop_single {σ : Type _} (metric : σ → ℤ) (num_steps : ℕ) :
    List σ → ℕ → Option (List ℤ)
  | [], _ => some []
  | s :: rest, i =>
    match progressCheck num_steps i with
    | none => none
    | some _ =>
      match dem_wins_loop_single metric num_steps rest (i + 1) with
      | none => none
      | some l => some (metric s :: l)

/-- `run_ensemble` of single_state_detection.py (lines 432-454): run the
chain for `num_steps` steps, folding the loop with the progress-print check;
`none` is the `return None` of the exception handler. -/
def run_ensemble_single {σ : Type _} (propose : σ → Option σ) (valid : σ → Bool)
    (accept : σ → σ → Bool) (metric : σ → ℤ) (init : σ) (num_steps : ℕ) :
    Option (List ℤ) :=
  dem_wins_loop_single metric num_steps
    (chainOutputs propose valid accept init num_steps) 0

theorem chainOutputs_length {σ : Type _} (propose : σ → Option σ)
    (valid : σ → Bool) (accept : σ → σ → Bool) (init : σ) (n : ℕ) :
    (chainOutputs propose valid accept init n).length = n := by
  induction n generalizing init with
  | zero => rfl
  | succ k ih => simp [chainOutputs, ih]

theorem chainOutputs_getElem {σ : Type _} (propose : σ → Option σ)
    (valid : σ → Bool) (accept : σ → σ → Bool) (init : σ) (n i : ℕ)
    (hi : i < n) :
    (chainOutputs propose valid accept init n)[i]? =
      some ((chainStep propose valid accept)^[i] init) := by
  induction n generalizing init i with
  | zero => omega
  | succ k ih =>
    cases i with
    | zero => simp [chainOutputs]
    | succ j =>
      have hj : j < k := Nat.lt_of_succ_lt_succ hi
      simp only [chainOutputs, List.getElem?_cons_succ]
      rw [ih _ j hj, Function.iterate_succ_apply]

theorem dem_wins_loop_single_of_div_ne_zero {σ : Type _} (metric : σ → ℤ)
    (num_steps : ℕ) (h : num_steps / 10 ≠ 0) :
    ∀ (states : List σ) (i : ℕ),
      dem_wins_loop_single metric num_steps states i = some (states.map metric) := by
  intro states
  induction states with
  | nil => intro i; rfl
  | cons s rest ih =>
    intro i
    simp only [dem_wins_loop_single, progressCheck, if_neg h, ih (i + 1),
      List.map_cons]

/-- Counterexample for C2: on a concrete chain with `total_steps = 5 ≥ 1`,
single_state_detection's `run_ensemble` does not return a length-5 metric
list — the progress-print modulo divides `num_steps // 10 = 0` at the first
iteration and the function returns `None`. -/
theorem run_ensemble_small_steps_counterexample :
    run_ensemble_single (fun s : ℕ => some (s + 1)) (fun _ => true)
      (fun _ _ => true) (fun s => (s : ℤ)) 0 5 = none ∧ (1 : ℕ) ≤ 5 := by
  exact ⟨by decide, by decide⟩

/-- C2 (amended): multi_state_detection's ensemble loop with
`total_steps = N ≥ 1` returns a metric list of length exactly N, entry `i`
being the metric of the chain's `i`-th state (one entry per step, in order),
and a step whose candidate fails validation repeats the current state;
single_state_detection's loop returns the same list, but only for `N ≥ 10` —
for `1 ≤ N ≤ 9` its progress-print modulo divides by zero and `run_ensemble`
returns `None`. -/
theorem run_ensemble_steps {σ : Type _} (propose : σ → Option σ)
    (valid : σ → Bool) (accept : σ → σ → Bool) (metric : σ → ℤ) (init : σ)
    (n : ℕ) (hn : 1 ≤ n) :
    ((run_ensemble_multi_metrics propose valid accept metric init n).length = n ∧
     (∀ i, i < n →
       (run_ensemble_multi_metrics propose valid accept metric init n)[i]? =
         some (metric ((chainStep propose valid accept)^[i] init))) ∧
     (∀ (s cand : σ), propose s = some cand → valid cand = false →
       chainStep propose valid accept s = s)) ∧
    (10 ≤ n →
      run_ensemble_single propose valid accept metric init n =
        some (run_ensemble_multi_metrics propose valid accept metric init n)) := by
  refine ⟨⟨?_, ?_, ?_⟩, ?_⟩
  · simp only [run_ensemble_multi_metrics, List.length_map, chainOutputs_length]
  · intro i hi
    simp only [run_ensemble_multi_metrics, List.getElem?_map]
    rw [chainOutputs_getElem propose valid accept init n i hi]
    rfl
  · intro s cand hp hv
    unfold chainStep
    rw [hp]
    simp [hv]
  · intro h10
    rw [run_ensemble_single, run_ensemble_multi_metrics]
    exact dem_wins_loop_single_of_div_ne_zero metric n (by omega) _ 0

/-- Witness for C2 (amended): a concrete 10-step chain over `ℕ` states, both
hypotheses discharged. -/
theorem run_ensemble_steps_witness :
    (run_ensemble_multi_metrics (fun s : ℕ => some (s + 1)) (fun _ => true)
      (fun _ _ => true) (fun s => (s : ℤ)) 0 10).length = 10 ∧
    run_ensemble_single (fun s : ℕ => some (s + 1)) (fun _ => true)
      (fun _ _ => true) (fun s => (s : ℤ)) 0 10 =
      some (run_ensemble_multi_metrics (fun s : ℕ => some (s + 1))
        (fun _ => true) (fun _ _ => true) (fun s => (s : ℤ)) 0 10) :=
  ⟨((run_ensemble_steps (fun s : ℕ => some (s + 1)) (fun _ => true)
      (fun _ _ => true) (fun s => (s : ℤ)) 0 10 (by decide)).1).1,
   (run_ensemble_steps (fun s : ℕ => some (s + 1)) (fun _ => true)
      (fun _ _ => true) (fun s => (s : ℤ)) 0 10 (by decide)).2 (by decide)⟩

/-! ## Degenerate-ensemble detection (v2 run_ensemble / analyze_state) -/

/-- `len(set(dem_wins_list)) == 1` — the degenerate-ensemble check that
triggers the printed warning in `run_ensemble`
(single_state_detection_v2.py line 550). -/
def degenerate_warning (dem_wins_list : List ℤ) : Bool :=
  dem_wins_list.dedup.length == 1

/-- The keys of the result dict returned by `analyze_state`
(single_state_detection_v2.py lines 989-1013). -/
def v2ResultKeys : List String :=
  ["state", "precincts", "num_districts", "initial_dem_wins",
   "dem_vote_share", "rep_vote_share", "total_dem_votes", "total_rep_votes",
   "ensemble_mean", "ensemble_std", "ensemble_min", "ensemble_max",
   "percentile", "z_score", "is_gerrymandered", "percentile_outlier",
   "large_seats_votes_gap", "has_packing", "large_seat_difference",
   "ensemble_steps", "histogram", "seat_vote_gap_dem", "seat_vote_gap_rep"]

/-- Counterexample for C4: on the all-identical ensemble `[3, 3, 3, 3, 3]`
the degenerate condition is detected (the warning fires), yet the result
record returned by `analyze_state` has no degenerate flag among its keys. -/
theorem degenerate_flag_counterexample :
    degenerate_warning (List.replicate 5 3) = true ∧
    "degenerate" ∉ v2ResultKeys ∧ "degenerate_ensemble" ∉ v2ResultKeys := by
  refine ⟨by decide, by decide, by decide⟩

/-- C4 (amended): for every non-empty ensemble, the degenerate condition is
detected and surfaced as a printed warning by `run_ensemble` exactly when all
metric values are identical, but it is not included as a flag in the analysis
result record returned by `analyze_state`. -/
theorem degenerate_warning_iff (l : List ℤ) (hl : l ≠ []) :
    (degenerate_warning l = true ↔ ∀ x ∈ l, x = l.headI) ∧
    "degenerate" ∉ v2ResultKeys := by
  refine ⟨?_, by decide⟩
  obtain ⟨a0, t, rfl⟩ := List.exists_cons_of_ne_nil hl
  unfold degenerate_warning
  rw [beq_iff_eq, List.length_eq_one]
  simp only [List.headI_cons]
  constructor
  · rintro ⟨a, ha⟩ x hx
    have hxa : x = a := by
      have hxd : x ∈ (a0 :: t).dedup := (List.mem_dedup).2 hx
      rw [ha] at hxd
      simpa using hxd
    have hha : a0 = a := by
      have hh : a0 ∈ (a0 :: t).dedup := (List.mem_dedup).2 (by simp)
      rw [ha] at hh
      simpa using hh
    rw [hxa, hha]
  · intro hall
    refine ⟨a0, ?_⟩
    have h1 : (a0 :: t) = List.replicate (a0 :: t).length a0 :=
      List.eq_replicate_length.2 hall
    have h2 : (List.replicate (a0 :: t).length a0).dedup = [a0] :=
      List.replicate_dedup (by simp)
    rw [← h1] at h2
    exact h2

/-- Witness for C4 (amended) on the ensemble `[2, 2]`. -/
theorem degenerate_warning_iff_witness :
    degenerate_warning [(2 : ℤ), 2] = true :=
  (degenerate_warning_iff [(2 : ℤ), 2] (by decide)).1.2 (by decide)

/-! ## Contiguity pre-check before running the chain (run_ensemble) -/

/-- The configuration computed by `run_ensemble` before the chain is built
(single_state_detection.py lines 410-430): given whether the initial
partition is contiguous and whether the caller requested the contiguity
constraint, return the warning flag and the final `use_contiguity` value.
`if use_contiguity and not is_contiguous: ... warn ...; use_contiguity = False`. -/
def contiguitySetup (is_contig use_contiguity : Bool) : Bool × Bool :=
  if use_contiguity && !is_contig then (true, false) else (false, use_contiguity)

/-- The constraint list passed to `MarkovChain`
(single_state_detection.py lines 425-429): `[single_flip_contiguous]` when
contiguity is in force, `[]` otherwise. -/
def constraints_single (use_contiguity : Bool) : List String :=
  if use_contiguity then ["single_flip_contiguous"] else []

/-- The v2 configuration (single_state_detection_v2.py lines 482-490):
`use_contiguity = is_contiguous(initial_partition)`, with a warning printed
exactly when it is false. Returns (warned, use_contiguity). -/
def contiguitySetupV2 (is_contig : Bool) : Bool × Bool :=
  (!is_contig, is_contig)

/-- The v2 constraint list (single_state_detection_v2.py lines 497-502):
the population constraint always, `contiguous` appended only when the
initial partition is contiguous. -/
def constraints_v2 (use_contiguity : Bool) : List String :=
  if use_contiguity then ["within_percent_of_ideal_population", "contiguous"]
  else ["within_percent_of_ideal_population"]

/-- C6: when the initial partition is not contiguous, the chain is never run
with the contiguity constraint: in single_state_detection the constraint is
dropped and, whenever it had been requested, a warning is reported; in v2 the
constraint is dropped and the warning is always reported. -/
theorem contiguity_never_silent (is_contig use_contiguity : Bool)
    (h : is_contig = false) :
    "single_flip_contiguous" ∉
      constraints_single (contiguitySetup is_contig use_contiguity).2 ∧
    (use_contiguity = true → (contiguitySetup is_contig use_contiguity).1 = true) ∧
    "contiguous" ∉ constraints_v2 (contiguitySetupV2 is_contig).2 ∧
    (contiguitySetupV2 is_contig).1 = true := by
  subst h
  cases use_contiguity <;> refine ⟨by decide, by decide, by decide, by decide⟩

/-- Witness for C6: a non-contiguous initial partition with the constraint
requested. -/
theorem contiguity_never_silent_witness :
    "single_flip_contiguous" ∉ constraints_single (contiguitySetup false true).2 ∧
    (contiguitySetup false true).1 = true :=
  ⟨(contiguity_never_silent false true rfl).1,
    (contiguity_never_silent false true rfl).2.1 rfl⟩

/-! ## District statistics (get_district_statistics) and packing -/

/-- Per-district statistics computed by `get_district_statistics`
(single_state_detection_v2.py lines 580-606): vote counts are tallies of
nonnegative per-unit counts, embedded as `ℕ`; percentages as `ℚ`.
`dem_pct = dem/total*100` and `rep_pct = rep/total*100` when `total > 0`,
both 0 otherwise; `winner = "DEM" if dem_votes > rep_votes else "REP"`;
`margin_pct = |dem-rep|/total*100` when `total > 0`, else 0. -/
structure DistrictStats where
  dem_votes : ℕ
  rep_votes : ℕ
  total_votes : ℕ
  dem_pct : ℚ
  rep_pct : ℚ
  winner : String
  margin : ℕ
  margin_pct : ℚ

/-- `get_district_statistics` for one district, from its tallied vote pair. -/
def districtStats (dem rep : ℕ) : DistrictStats :=
  let total := dem + rep
  { dem_votes := dem
    rep_votes := rep
    total_votes := total
    dem_pct := if 0 < total then (dem : ℚ) / total * 100 else 0
    rep_pct := if 0 < total then (rep : ℚ) / total * 100 else 0
    winner := if rep < dem then "DEM" else "REP"
    margin := max dem rep - min dem rep
    margin_pct := if 0 < total then
      ((max dem rep - min dem rep : ℕ) : ℚ) / total * 100 else 0 }

/-- `dem_packing = any(stats['dem_pct'] > 65 and stats['winner'] == 'DEM' ...)`
— from `analyze_state` (single_state_detection_v2.py line 889). -/
def dem_packing (stats : List DistrictStats) : Bool :=
  stats.any (fun s => decide (s.dem_pct > 65) && (s.winner == "DEM"))

/-- `rep_packing = any(stats['rep_pct'] > 65 and stats['winner'] == 'REP' ...)`
— from `analyze_state` (single_state_detection_v2.py line 890). -/
def rep_packing (stats : List DistrictStats) : Bool :=
  stats.any (fun s => decide (s.rep_pct > 65) && (s.winner == "REP"))

/-- `has_packing = dem_packing or rep_packing` — single_state_detection_v2.py
line 891. -/
def has_packing (stats : List DistrictStats) : Bool :=
  dem_packing stats || rep_packing stats

/-- The spec's notion: the share of the district's two-party vote held by the
winning party (the winner being the strict-majority party, ties to REP). -/
def winnerShare (dem rep : ℕ) : ℚ :=
  if rep < dem then (districtStats dem rep).dem_pct
  else (districtStats dem rep).rep_pct

theorem dem_pct_gt_65_imp_winner (dem rep : ℕ)
    (h : (districtStats dem rep).dem_pct > 65) : rep < dem := by
  unfold districtStats at h
  simp only at h
  by_cases ht : 0 < dem + rep
  · rw [if_pos ht] at h
    rw [div_mul_eq_mul_div, gt_iff_lt, lt_div_iff (by exact_mod_cast ht)] at h
    have hlt : (rep : ℚ) < dem := by
      push_cast at h
      nlinarith
    exact_mod_cast hlt
  · rw [if_neg ht] at h
    norm_num at h

theorem rep_pct_gt_65_imp_winner (dem rep : ℕ)
    (h : (districtStats dem rep).rep_pct > 65) : dem < rep := by
  unfold districtStats at h
  simp only at h
  by_cases ht : 0 < dem + rep
  · rw [if_pos ht] at h
    rw [div_mul_eq_mul_div, gt_iff_lt, lt_div_iff (by exact_mod_cast ht)] at h
    have hlt : (dem : ℚ) < rep := by
      push_cast at h
      nlinarith
    exact_mod_cast hlt
  · rw [if_neg ht] at h
    norm_num at h

/-- C7: the packing flag is true iff some district's winning party holds
strictly more than 65% (the configured share) of that district's two-party
vote, for every list of per-district vote pairs. -/
theorem has_packing_iff (votes : List (ℕ × ℕ)) :
    has_packing (votes.map (fun v => districtStats v.1 v.2)) = true ↔
      ∃ v ∈ votes, winnerShare v.1 v.2 > 65 := by
  unfold has_packing dem_packing rep_packing
  rw [Bool.or_eq_true, List.any_eq_true, List.any_eq_true]
  constructor
  · rintro (⟨s, hs, hcond⟩ | ⟨s, hs, hcond⟩) <;>
      obtain ⟨v, hv, rfl⟩ := List.mem_map.1 hs <;>
      rw [Bool.and_eq_true, decide_eq_true_eq, beq_iff_eq] at hcond
    · refine ⟨v, hv, ?_⟩
      have hw : v.2 < v.1 := dem_pct_gt_65_imp_winner v.1 v.2 hcond.1
      rw [winnerShare, if_pos hw]
      exact hcond.1
    · refine ⟨v, hv, ?_⟩
      have hw : v.1 < v.2 := rep_pct_gt_65_imp_winner v.1 v.2 hcond.1
      rw [winnerShare, if_neg (by omega)]
      exact hcond.1
  · rintro ⟨v, hv, hshare⟩
    rw [winnerShare] at hshare
    by_cases hw : v.2 < v.1
    · rw [if_pos hw] at hshare
      left
      refine ⟨districtStats v.1 v.2, List.mem_map.2 ⟨v, hv, rfl⟩, ?_⟩
      rw [Bool.and_eq_true, decide_eq_true_eq, beq_iff_eq]
      refine ⟨hshare, ?_⟩
      unfold districtStats
      simp only
      rw [if_pos hw]
    · rw [if_neg hw] at hshare
      right
      refine ⟨districtStats v.1 v.2, List.mem_map.2 ⟨v, hv, rfl⟩, ?_⟩
      rw [Bool.and_eq_true, decide_eq_true_eq, beq_iff_eq]
      refine ⟨hshare, ?_⟩
      unfold districtStats
      simp only
      rw [if_neg hw]

/-! ## Winner determination (C9) -/

/-- `winner = "DEM" if dem_votes > rep_votes else "REP"` —
get_district_statistics (single_state_detection_v2.py line 591) and
create_fair_districts (gerrymandering_detection.py line 118). -/
def winnerOf (dem rep : ℕ) : String :=
  if rep < dem then "DEM" else "REP"

/-- `dem_wins = sum(1 for district ... if dem_votes[d] > rep_votes[d])` —
run_ensemble (single_state_detection.py lines 447-450); embedded as a count
over the list of per-district vote pairs. -/
def demWinsCount (votes : List (ℕ × ℕ)) : ℕ :=
  votes.countP (fun v => v.2 < v.1)

/-- C9: the winner determination is strict — a district is a DEM win iff its
Democratic votes strictly exceed its Republican votes; an exactly tied
district is labeled REP and contributes nothing to the Democratic seat
tally. -/
theorem winner_strict (dem rep v : ℕ) (votes : List (ℕ × ℕ)) :
    (winnerOf dem rep = "DEM" ↔ rep < dem) ∧
    winnerOf v v = "REP" ∧
    demWinsCount ((v, v) :: votes) = demWinsCount votes := by
  refine ⟨?_, ?_, ?_⟩
  · unfold winnerOf
    by_cases h : rep < dem
    · rw [if_pos h]
      simp [h]
    · rw [if_neg h]
      simp [h]
  · unfold winnerOf
    rw [if_neg (lt_irrefl v)]
  · unfold demWinsCount
    rw [List.countP_cons]
    simp

/-! ## Division-by-zero guards (C10) -/

/-- Ensemble-average per-district statistics from
`calculate_ensemble_average_map` (single_state_detection_v2.py lines
645-669): the averaged vote totals are rationals. -/
def ensembleAvgStats (dem_avg rep_avg : ℚ) : ℚ × ℚ × ℚ :=
  let total_avg := dem_avg + rep_avg
  (if 0 < total_avg then dem_avg / total_avg * 100 else 0,
   if 0 < total_avg then rep_avg / total_avg * 100 else 0,
   if 0 < total_avg then |dem_avg - rep_avg| / total_avg * 100 else 0)

/-- C10: when a district's two-party vote total is zero, the Democratic
percentage, Republican percentage and margin percentage are all 0, both in
the per-district statistics and in the ensemble-average statistics. -/
theorem zero_total_pcts_zero (dem rep : ℕ) (dem_avg rep_avg : ℚ)
    (h : dem + rep = 0) (havg : dem_avg + rep_avg = 0) :
    (districtStats dem rep).dem_pct = 0 ∧
    (districtStats dem rep).rep_pct = 0 ∧
    (districtStats dem rep).margin_pct = 0 ∧
    (ensembleAvgStats dem_avg rep_avg).1 = 0 ∧
    (ensembleAvgStats dem_avg rep_avg).2.1 = 0 ∧
    (ensembleAvgStats dem_avg rep_avg).2.2 = 0 := by
  have h0 : ¬ 0 < dem + rep := by omega
  have h0' : ¬ (0 : ℚ) < dem_avg + rep_avg := by rw [havg]; exact lt_irrefl 0
  unfold districtStats ensembleAvgStats
  simp only [h0, h0', if_false]
  exact ⟨trivial, trivial, trivial, trivial, trivial, trivial⟩

/-- Witness for C10 at the zero-vote district. -/
theorem zero_total_pcts_zero_witness :
    (districtStats 0 0).dem_pct = 0 ∧ (ensembleAvgStats 0 0).2.2 = 0 :=
  ⟨(zero_total_pcts_zero 0 0 0 0 rfl (by norm_num)).1,
    (zero_total_pcts_zero 0 0 0 0 rfl (by norm_num)).2.2.2.2.2⟩

/-! ## Isolated-node removal in the data loaders (C8) -/

/-- The degree of a node with respect to a node list: the number of members
of the list adjacent to it (`graph.degree(node)` on the graph whose node set
is `nodes`). -/
def nodeDegree {α : Type _} (nodes : List α) (adj : α → α → Bool) (n : α) : ℕ :=
  (nodes.filter (fun m => adj n m)).length

/-- `isolated_nodes = [node for node in graph.nodes() if graph.degree(node) == 0]`
followed by `graph.remove_nodes_from(isolated_nodes)` — from `load_state_data`
(single_state_detection.py lines 188-192, multi_state_detection.py lines
113-116) and `load_real_data` (real_data_simple.py lines 41-45). The
resulting graph keeps exactly the nodes of positive degree. -/
def removeIsolated {α : Type _} (nodes : List α) (adj : α → α → Bool) : List α :=
  nodes.filter (fun n => decide (nodeDegree nodes adj n ≠ 0))

theorem degree_pos_of_mem_adj {α : Type _} (nodes : List α) (adj : α → α → Bool)
    (n m : α) (hm : m ∈ nodes) (hadj : adj n m = true) :
    nodeDegree nodes adj n ≠ 0 := by
  unfold nodeDegree
  intro hlen
  rw [List.length_eq_zero] at hlen
  have : m ∈ nodes.filter (fun m => adj n m) := List.mem_filter.2 ⟨hm, hadj⟩
  rw [hlen] at this
  exact List.not_mem_nil m this

/-- C8: on a graph with symmetric adjacency, every node of the graph returned
by the data loader has at least one neighbor inside the returned graph — all
isolated nodes are removed and the removal creates no new isolated node. -/
theorem removeIsolated_no_isolated {α : Type _} (nodes : List α)
    (adj : α → α → Bool) (hsym : ∀ a b, adj a b = adj b a) :
    ∀ n ∈ removeIsolated nodes adj,
      0 < nodeDegree (removeIsolated nodes adj) adj n := by
  intro n hn
  rw [removeIsolated, List.mem_filter, decide_eq_true_eq] at hn
  obtain ⟨hn_mem, hdeg⟩ := hn
  have hdeg' : (nodes.filter (fun m => adj n m)).length ≠ 0 := hdeg
  obtain ⟨m, hm⟩ : ∃ m, m ∈ nodes.filter (fun m => adj n m) := by
    cases hfil : nodes.filter (fun m => adj n m) with
    | nil => exact absurd (by rw [nodeDegree, hfil]; rfl) hdeg
    | cons a t => exact ⟨a, hfil ▸ List.mem_cons_self a t⟩
  rw [List.mem_filter] at hm
  obtain ⟨hm_mem, hm_adj⟩ := hm
  have hm_kept : m ∈ removeIsolated nodes adj := by
    rw [removeIsolated, List.mem_filter, decide_eq_true_eq]
    exact ⟨hm_mem, degree_pos_of_mem_adj nodes adj m n hn_mem (by rw [hsym m n]; exact hm_adj)⟩
  have : m ∈ (removeIsolated nodes adj).filter (fun m => adj n m) :=
    List.mem_filter.2 ⟨hm_kept, hm_adj⟩
  unfold nodeDegree
  exact List.length_pos.2 (fun hnil => by rw [hnil] at this; exact List.not_mem_nil m this)

/-- Witness for C8: the path graph 0 - 1 with the isolated node 5 removed. -/
theorem removeIsolated_no_isolated_witness :
    0 < nodeDegree (removeIsolated [0, 1, 5] (fun a b => a + b == 1))
      (fun a b => a + b == 1) 0 :=
  removeIsolated_no_isolated [0, 1, 5] (fun a b => a + b == 1)
    (fun a b => by simp [Nat.add_comm]) 0 (by decide)

end GerrychainFRA
